import Mathlib

/-!
Verification development for the `linker` hardlink-deployment tool.

The program browses a filesystem tree and deploys (hardlinks) selected
files/directories into a target directory, reconciling name conflicts
(`fail`/`skip`/`overwrite`/`rename`) and re-applying an ownership policy.

The definitions below are a shallow embedding of the relevant source code:
* `core.py` — `create_hardlink` (the deployment engine),
* `tui_browser.py` — `load_directory`, `action_go_up`, `action_toggle_select`,
  `action_delete_link` (directory branch), `action_deploy`,
* `permissions_helper.py` — `get_app_permissions_for_path`.

Machine-level conventions of the embedding:
* A filesystem path is a list of name components (`Path`), already in
  resolved (symlink-free, absolute) form unless noted.
* The destination filesystem is an association list from paths to node
  kinds; the first binding for a path wins.
* Calls into the OS that can raise (`mkdir`, `os.link`, removals) are
  modelled by boolean oracles in `Env`: the oracle answers `true` exactly
  when the corresponding `try` block of the source would raise.  Logging
  calls have no effect on the modelled state and are omitted.
* Python strings are modelled as Lean `String`s; `str.startswith` and the
  `pathlib` stem/suffix split are reimplemented below on code points.
-/

namespace Linker

/-- A filesystem path, as a list of name components (resolved, absolute). -/
abbrev Path := List String

/-- Kind of a directory entry: regular file (with its link count),
directory, or symlink.  `pathlib.Path.exists() or is_symlink()` in the
source corresponds to having any binding at all. -/
inductive NodeKind where
  | file (nlink : Nat)
  | dir
  | symlink
deriving DecidableEq, Repr

/-- The destination filesystem: an association list from paths to node
kinds.  The first binding for a path is the authoritative one. -/
structure FS where
  entries : List (Path × NodeKind)
deriving DecidableEq, Repr

/-- First binding for `p`, if any (the stat of `p`). -/
def FS.lookup (fs : FS) (p : Path) : Option NodeKind :=
  (fs.entries.find? (fun e => decide (e.1 = p))).map Prod.snd

/-- `Path.exists() or Path.is_symlink()`: `p` has some binding. -/
def FS.existsPath (fs : FS) (p : Path) : Bool :=
  (fs.lookup p).isSome

/-- `Path.is_dir()`: `p` is bound to a directory. -/
def FS.isDir (fs : FS) (p : Path) : Bool :=
  fs.lookup p == some NodeKind.dir

/-- Create a fresh binding (used for `os.link` and `mkdir`). -/
def FS.insertNode (fs : FS) (p : Path) (k : NodeKind) : FS :=
  ⟨(p, k) :: fs.entries⟩

/-- `unlink`/`shutil.rmtree`: removes `p` and everything below `p`. -/
def FS.removeTree (fs : FS) (p : Path) : FS :=
  ⟨fs.entries.filter (fun e => !(p.isPrefixOf e.1))⟩

/-- `Path.mkdir(parents=True, exist_ok=True)`: every prefix of `p`
(including `p` itself) that is not yet bound is bound to a directory. -/
def FS.mkdirParents (fs : FS) (p : Path) : FS :=
  p.inits.foldl (fun f q => if f.existsPath q then f else f.insertNode q NodeKind.dir) fs

/-- The `conflict_strategy` parameter of `create_hardlink`
(`'fail' | 'skip' | 'overwrite' | 'rename'`). -/
inductive Strategy where
  | fail
  | skip
  | overwrite
  | rename
deriving DecidableEq, Repr

/-- Environment oracles for OS calls that the source wraps in `try` blocks.
An oracle answers `true` exactly when the corresponding call would raise.
`mkdirFails p` covers the whole per-directory `try` block of the recursive
walk (`mkdir` plus the permission lookup/application for that directory). -/
structure Env where
  mkdirFails : Path → Bool
  removeFails : Path → Bool
  linkFails : Path → Bool

/-- Classification of the `source` argument of `create_hardlink`.
For a directory source we record the `os.walk(source)` enumeration:
one `(root-relative path, files in that root)` pair per directory,
top-down, the source root itself first with relative path `[]`. -/
inductive Source where
  | missing
  | file
  | dir (walkEntries : List (Path × List String))
  | other
deriving DecidableEq

/-- `pathlib` last-dot index: position of the last `'.'` in a name. -/
def lastDotIdx (cs : List Char) : Option Nat :=
  ((List.range cs.length).filter (fun i => decide (cs.get? i = some '.'))).getLast?

/-- `pathlib.PurePath.stem` of a one-component name. -/
def stemOf (name : String) : String :=
  let cs := name.toList
  match lastDotIdx cs with
  | some i => if 0 < i ∧ i < cs.length - 1 then String.mk (cs.take i) else name
  | none => name

/-- `pathlib.PurePath.suffix` of a one-component name. -/
def suffixOf (name : String) : String :=
  let cs := name.toList
  match lastDotIdx cs with
  | some i => if 0 < i ∧ i < cs.length - 1 then String.mk (cs.drop i) else ""
  | none => ""

/-- The probe name `f"{stem} ({counter}){suffix}"` used by the `rename`
conflict strategy. -/
def probeName (stem suffix : String) (counter : Nat) : String :=
  stem ++ " (" ++ toString counter ++ ")" ++ suffix

/-- The `rename` probe loop of the file-source branch
(`core.py` lines 161–172).  Probes `cur`; while it exists, computes the
next candidate `probeName stem suffix c` and increments the counter, and
returns `none` (`return False`, `NoAvailableName`) as soon as the counter
exceeds 999.  The counter check bounds the loop by 999 iterations, so the
structural `fuel` argument (always called with 1000) never reaches 0. -/
def renameLoopFile (ex : String → Bool) (stem suffix : String) :
    Nat → Nat → String → Option String
  | 0, _, _ => none
  | fuel + 1, c, cur =>
    if ex cur then
      if 999 < c + 1 then none
      else renameLoopFile ex stem suffix fuel (c + 1) (probeName stem suffix c)
    else some cur

/-- The `rename` probe loop of the per-file walk branch
(`core.py` lines 113–124).  Identical probing, but the `continue` on
`counter > 999` continues the `while` loop itself, so the loop only ends
when a non-existing name is found: the counter overflow merely records
`all_success = False` (the `flagged` accumulator).  The loop can run
unboundedly, hence the explicit fuel; `none` means fuel exhaustion. -/
def renameLoopWalk (ex : String → Bool) (stem suffix : String) :
    Nat → Nat → String → Bool → Option (String × Bool)
  | 0, _, _, _ => none
  | fuel + 1, c, cur, flagged =>
    if ex cur then
      renameLoopWalk ex stem suffix fuel (c + 1) (probeName stem suffix c)
        (flagged || decide (999 < c + 1))
    else some (cur, flagged)

/-- `os.link` followed by the best-effort permission application
(which never flips the outcome).  On an `OSError` the current item is
recorded as failed and nothing is created. -/
def linkStep (env : Env) (fs : FS) (ok : Bool) (dest : Path) : FS × Bool :=
  if env.linkFails dest then (fs, false)
  else (fs.insertNode dest (NodeKind.file 2), ok)

/-- Per-file body of the recursive walk (`core.py` lines 91–134), acting on
the `(filesystem, all_success)` accumulator.  `none` only on fuel
exhaustion of the walk `rename` loop. -/
def processFile (env : Env) (strategy : Strategy) (fuel : Nat)
    (destRoot : Path) (fname : String) : FS × Bool → Option (FS × Bool) :=
  fun st =>
    let fs := st.1
    let ok := st.2
    let destFile := destRoot ++ [fname]
    if fs.existsPath destFile then
      match strategy with
      | Strategy.fail => some (fs, false)
      | Strategy.skip => some (fs, ok)
      | Strategy.overwrite =>
        if env.removeFails destFile then some (fs, false)
        else some (linkStep env (fs.removeTree destFile) ok destFile)
      | Strategy.rename =>
        match renameLoopWalk (fun nm => fs.existsPath (destRoot ++ [nm]))
            (stemOf fname) (suffixOf fname) fuel 1 fname false with
        | none => none
        | some (nm, flagged) =>
          some (linkStep env fs (ok && !flagged) (destRoot ++ [nm]))
    else some (linkStep env fs ok destFile)

/-- Fold of `processFile` over the files of one walk root. -/
def filesFold (env : Env) (strategy : Strategy) (fuel : Nat) (destRoot : Path) :
    List String → FS × Bool → Option (FS × Bool)
  | [], st => some st
  | f :: rest, st =>
    match processFile env strategy fuel destRoot f st with
    | none => none
    | some st' => filesFold env strategy fuel destRoot rest st'

/-- The `os.walk` loop of the directory branch (`core.py` lines 76–135).
For each walk entry `(relRoot, files)`: try to create the destination
sub-directory (with parents, `exist_ok`); on failure record the failure
and `continue` — which skips only this entry's files, the remaining walk
entries (descendants included) are still processed. -/
def walkFold (env : Env) (strategy : Strategy) (fuel : Nat) (target : Path) :
    FS × Bool → List (Path × List String) → Option (FS × Bool)
  | st, [] => some st
  | st, (relRoot, files) :: rest =>
    let destRoot := target ++ relRoot
    if env.mkdirFails destRoot then
      walkFold env strategy fuel target (st.1, false) rest
    else
      match filesFold env strategy fuel destRoot files (st.1.mkdirParents destRoot, st.2) with
      | none => none
      | some st' => walkFold env strategy fuel target st' rest

/-- Directory-source branch of `create_hardlink` (`core.py` lines 44–135):
top-level conflict resolution (with `rename` degraded to `fail`), then the
recursive walk. -/
def dirDeploy (env : Env) (fs : FS) (strategy : Strategy) (fuel : Nat)
    (targetDirPath : Path) (walkEntries : List (Path × List String)) :
    Option (FS × Bool) :=
  if fs.existsPath targetDirPath then
    match (if strategy = Strategy.rename then Strategy.fail else strategy) with
    | Strategy.fail => some (fs, false)
    | Strategy.skip => some (fs, true)
    | Strategy.overwrite =>
      if env.removeFails targetDirPath then some (fs, false)
      else walkFold env strategy fuel targetDirPath
        (fs.removeTree targetDirPath, true) walkEntries
    | Strategy.rename => some (fs, false)
  else walkFold env strategy fuel targetDirPath (fs, true) walkEntries

/-- File-source branch of `create_hardlink` (`core.py` lines 137–194):
conflict resolution at the single destination name, then `os.link`. -/
def fileDeploy (env : Env) (fs : FS) (strategy : Strategy)
    (linkName : String) (destDir : Path) : FS × Bool :=
  let linkPath := destDir ++ [linkName]
  if fs.existsPath linkPath then
    match strategy with
    | Strategy.fail => (fs, false)
    | Strategy.skip => (fs, true)
    | Strategy.overwrite =>
      if env.removeFails linkPath then (fs, false)
      else linkStep env (fs.removeTree linkPath) true linkPath
    | Strategy.rename =>
      match renameLoopFile (fun nm => fs.existsPath (destDir ++ [nm]))
          (stemOf linkName) (suffixOf linkName) 1000 1 linkName with
      | none => (fs, false)
      | some nm => linkStep env fs true (destDir ++ [nm])
  else linkStep env fs true linkPath

/-- `create_hardlink(source, destination_dir, name, conflict_strategy)`
(`core.py`).  Returns `some (filesystem', success)`; `none` only on fuel
exhaustion of the walk `rename` loop (a configuration in which the Python
loop does not terminate). -/
def create_hardlink (env : Env) (fs : FS) (src : Source) (srcName : String)
    (destDir : Path) (name : Option String) (strategy : Strategy)
    (fuel : Nat) : Option (FS × Bool) :=
  match src with
  | Source.missing => some (fs, false)
  | Source.dir walkEntries =>
    if fs.isDir destDir = false then some (fs, false)
    else dirDeploy env fs strategy fuel (destDir ++ [name.getD srcName]) walkEntries
  | Source.file =>
    if fs.isDir destDir = false then some (fs, false)
    else some (fileDeploy env fs strategy (name.getD srcName) destDir)
  | Source.other =>
    if fs.isDir destDir = false then some (fs, false)
    else some (fs, false)

/-! ### Navigation / selection state (`tui_browser.py`) -/

/-- The mutable state of `LinkerTUI` that the claims are about:
current directory (resolved), the ordered visible entries, the cursor
index (a Python `int`), and the selection set of resolved source paths.
The Python `set` is modelled as a duplicate-free list (membership is the
set's notion of equality; the list order stands for the set's unspecified
iteration order).  Table-widget mirroring and rendering are
presentation-layer and omitted. -/
structure TUIState where
  currentDir : Path
  items : List Path
  cursorIndex : Int
  selected : List Path
deriving DecidableEq

/-- Cursor logic of `load_directory` (`tui_browser.py` lines 156–160):
a valid `preserve_cursor_index` wins; otherwise an out-of-range cursor is
reset to 0 and an in-range cursor is kept. -/
def reloadCursor (cursor : Int) (preserve : Option Int) (n : Nat) : Int :=
  match preserve with
  | some p =>
    if 0 ≤ p ∧ p < (n : Int) then p
    else if (n : Int) ≤ cursor ∨ cursor < 0 then 0 else cursor
  | none => if (n : Int) ≤ cursor ∨ cursor < 0 then 0 else cursor

/-- `load_directory(path, preserve_cursor_index)` (`tui_browser.py`
lines 84–166).  `listing` abstracts the filesystem read
(`iterdir` + sort, directories first then case-insensitive name; entries
that fail to stat are dropped): it returns the final ordered entry list of
a directory.  The selection set is untouched. -/
def load_directory (listing : Path → List Path) (st : TUIState)
    (path : Path) (preserve : Option Int) : TUIState :=
  let entries := listing path
  { st with
    currentDir := path
    items := entries
    cursorIndex := reloadCursor st.cursorIndex preserve entries.length }

/-- `action_go_up` (`tui_browser.py` lines 195–199): move to the parent
directory unless already at the filesystem root (`Path.parent` of the root
is the root itself), reloading the listing with no preserve request. -/
def action_go_up (listing : Path → List Path) (st : TUIState) : TUIState :=
  let parent := st.currentDir.dropLast
  if parent = st.currentDir then st
  else load_directory listing st parent none

/-- `action_toggle_select` (`tui_browser.py` lines 210–229): no-op when
the listing is empty or the cursor is out of range; otherwise toggle the
resolved path of the entry under the cursor in the selection set, advance
the cursor unless at the last entry, and reload the listing preserving the
new cursor.  `resolve` abstracts `pathlib.Path.resolve()`.  (The cursor is
never negative in the application, so Python's negative indexing is not
modelled.) -/
def action_toggle_select (listing : Path → List Path) (resolve : Path → Path)
    (st : TUIState) : TUIState :=
  if st.items.length = 0 ∨ (st.items.length : Int) ≤ st.cursorIndex then st
  else
    match st.items.get? st.cursorIndex.toNat with
    | none => st
    | some entry =>
      let er := resolve entry
      let selected' :=
        if er ∈ st.selected then st.selected.erase er else er :: st.selected
      let cursor' :=
        if st.cursorIndex < (st.items.length : Int) - 1 then st.cursorIndex + 1
        else st.cursorIndex
      load_directory listing
        { st with selected := selected', cursorIndex := cursor' }
        st.currentDir (some cursor')

/-! ### Directory deletion (`tui_browser.py`, `action_delete_link`) -/

/-- One entry inside the directory under deletion, as inspected by
`action_delete_link`: `is_dir()` and `stat().st_nlink`. -/
structure DirItem where
  name : String
  isDir : Bool
  nlink : Nat
deriving DecidableEq, Repr

/-- Oracles for the OS calls of `action_delete_link`'s directory branch:
`listFails` for the `iterdir`/`stat` scan, `unlinkFails` per contained
file, `rmdirFails` for the final `rmdir`. -/
structure DelEnv where
  listFails : Bool
  unlinkFails : String → Bool
  rmdirFails : Bool

/-- Outcome of the directory branch of `action_delete_link`. -/
inductive DelOutcome where
  | cleaned
  | removedEmpty
  | refused
  | scanError
  | errored
deriving DecidableEq, Repr

/-- The `for item in items_inside: item.unlink()` cleanup loop
(`tui_browser.py` lines 269–271): stops at the first failing unlink,
keeping the files already unlinked deleted.  Returns the unlinked names
and whether the loop completed. -/
def unlinkAll (env : DelEnv) : List DirItem → List String × Bool
  | [] => ([], true)
  | it :: rest =>
    if env.unlinkFails it.name then ([], false)
    else
      let r := unlinkAll env rest
      (it.name :: r.1, r.2)

/-- Directory branch of `action_delete_link` (`tui_browser.py` lines
252–299).  Returns the outcome, the names of the files actually unlinked,
and whether the directory itself was removed.  The scan refuses the
deletion as soon as some entry is a sub-directory or has link count ≤ 1
(the `break` in the source is equivalent to `List.any`). -/
def deleteDirAction (env : DelEnv) (items : List DirItem) :
    DelOutcome × List String × Bool :=
  if env.listFails then (DelOutcome.scanError, [], false)
  else
    let onlyHardlinks := !(items.any (fun it => it.isDir || decide (it.nlink ≤ 1)))
    let containsItems := !items.isEmpty
    if containsItems && onlyHardlinks then
      match unlinkAll env items with
      | (deleted, false) => (DelOutcome.errored, deleted, false)
      | (deleted, true) =>
        if env.rmdirFails then (DelOutcome.errored, deleted, false)
        else (DelOutcome.cleaned, deleted, true)
    else if !containsItems then
      if env.rmdirFails then (DelOutcome.errored, [], false)
      else (DelOutcome.removedEmpty, [], true)
    else (DelOutcome.refused, [], false)

/-! ### Deploy command (`tui_browser.py`, `action_deploy`) -/

/-- Result of `action_deploy`: the bell-only signal on an empty selection,
or the completed batch with its success/failure counts.  `fuelOut` marks
fuel exhaustion inside a `create_hardlink` call. -/
inductive DeployResult where
  | emptySignal (st : TUIState) (fs : FS)
  | completed (st : TUIState) (fs : FS) (succ fails : Nat)
  | fuelOut
deriving DecidableEq

/-- `source_path.name`: the base name of a selected path. -/
def baseNameOf (p : Path) : String :=
  p.getLast?.getD ""

/-- The per-item loop of `action_deploy` (`tui_browser.py` lines
310–326): a vanished source counts as a failure and the batch continues;
an existing source is handed to `create_hardlink` with the current
directory as destination and the `rename` strategy. -/
def deployFold (env : Env) (fuel : Nat) (sourceOf : Path → Source)
    (destDir : Path) : List Path → FS × Nat × Nat → Option (FS × Nat × Nat)
  | [], st => some st
  | p :: rest, (fs, s, f) =>
    if sourceOf p = Source.missing then
      deployFold env fuel sourceOf destDir rest (fs, s, f + 1)
    else
      match create_hardlink env fs (sourceOf p) (baseNameOf p) destDir none
          Strategy.rename fuel with
      | none => none
      | some (fs', true) => deployFold env fuel sourceOf destDir rest (fs', s + 1, f)
      | some (fs', false) => deployFold env fuel sourceOf destDir rest (fs', s, f + 1)

/-- `action_deploy` (`tui_browser.py` lines 301–332): bell-only no-op on
an empty selection; otherwise deploy every selected path (in the set's
iteration order), clear the selection, and reload the listing preserving
the cursor.  `sourceOf` abstracts what each selected path currently is on
disk (`Source.missing` when it vanished). -/
def action_deploy (listing : Path → List Path) (env : Env) (fuel : Nat)
    (sourceOf : Path → Source) (st : TUIState) (fs : FS) : DeployResult :=
  if st.selected = [] then DeployResult.emptySignal st fs
  else
    match deployFold env fuel sourceOf st.currentDir st.selected (fs, 0, 0) with
    | none => DeployResult.fuelOut
    | some (fs', s, f) =>
      DeployResult.completed
        (load_directory listing { st with selected := [] } st.currentDir
          (some st.cursorIndex))
        fs' s f

/-! ### Permission-rule lookup (`permissions_helper.py`) -/

/-- One `applications` entry of the policy document: its path prefixes and
the ownership/mode triple. -/
structure AppInfo where
  paths : List String
  user : String
  group : String
  permissions : String
deriving DecidableEq, Repr

/-- The resolved ownership/mode triple. -/
structure PermRule where
  user : String
  group : String
  permissions : String
deriving DecidableEq, Repr

/-- Python `str.startswith` on code points. -/
def pyStartsWith (s pre : String) : Bool :=
  pre.toList.isPrefixOf s.toList

/-- Innermost loop of `get_app_permissions_for_path`: scan one
application's `paths` list, returning its triple at the first prefix
match. -/
def findInPaths (d : String) (a : AppInfo) : List String → Option PermRule
  | [] => none
  | ap :: rest =>
    if pyStartsWith d ap then some ⟨a.user, a.group, a.permissions⟩
    else findInPaths d a rest

/-- Middle loop: scan the applications of one mount in order. -/
def findInApps (d : String) : List AppInfo → Option PermRule
  | [] => none
  | a :: rest =>
    match findInPaths d a a.paths with
    | some r => some r
    | none => findInApps d rest

/-- `get_app_permissions_for_path(dest_path)` (`permissions_helper.py`
lines 52–75): iterate the mounts of the cached config, then each mount's
applications, then each application's path prefixes, returning the triple
of the first rule whose prefix is a raw string prefix of `str(dest_path)`.
The config is modelled as the iteration order it presents: a list of
mounts, each a list of applications. -/
def get_app_permissions_for_path (d : String) :
    List (List AppInfo) → Option PermRule
  | [] => none
  | mount :: rest =>
    match findInApps d mount with
    | some r => some r
    | none => get_app_permissions_for_path d rest

/-! ## Helper lemmas about the rename probe loops -/

/-- If the names probed at counters `c, …, M-1` (and the starting name)
all exist, the probe at `M` does not, and `M ≤ 998`, the file-source
probe loop finds `probeName stem suffix M`. -/
theorem renameLoopFile_finds (ex : String → Bool) (stem suffix : String)
    (M : Nat) (hM : M ≤ 998) :
    ∀ fuel c cur, 1 ≤ c → c ≤ M → M + 2 - c ≤ fuel → ex cur = true →
    (∀ k, c ≤ k → k < M → ex (probeName stem suffix k) = true) →
    ex (probeName stem suffix M) = false →
    renameLoopFile ex stem suffix fuel c cur = some (probeName stem suffix M) := by
  intro fuel
  induction fuel with
  | zero => intro c cur h1 h2 h3 _ _ _; omega
  | succ f ih =>
    intro c cur h1 h2 h3 hcur hk hMex
    rw [renameLoopFile, hcur]
    simp only [if_true]
    rw [if_neg (by omega)]
    rcases Nat.lt_or_ge c M with hlt | hge
    · exact ih (c + 1) (probeName stem suffix c) (by omega) (by omega) (by omega)
        (hk c le_rfl hlt) (fun k hk1 hk2 => hk k (by omega) hk2) hMex
    · have hcM : c = M := by omega
      subst hcM
      obtain ⟨f', rfl⟩ : ∃ f', f = f' + 1 := ⟨f - 1, by omega⟩
      rw [renameLoopFile, hMex]
      simp

/-- If the starting name and every probe at counters `1, …, 998` exist,
the file-source probe loop aborts (`NoAvailableName`) — regardless of
whether the probe at 999 would have been free. -/
theorem renameLoopFile_aborts (ex : String → Bool) (stem suffix : String) :
    ∀ fuel c cur, 1 ≤ c → ex cur = true →
    (∀ k, c ≤ k → k ≤ 998 → ex (probeName stem suffix k) = true) →
    renameLoopFile ex stem suffix fuel c cur = none := by
  intro fuel
  induction fuel with
  | zero => intro c cur _ _ _; rw [renameLoopFile]
  | succ f ih =>
    intro c cur h1 hcur hk
    rw [renameLoopFile, hcur]
    simp only [if_true]
    by_cases hc : 999 < c + 1
    · rw [if_pos hc]
    · rw [if_neg hc]
      exact ih (c + 1) (probeName stem suffix c) (by omega)
        (hk c le_rfl (by omega)) (fun k hk1 hk2 => hk k (by omega) hk2)

/-- The per-file walk probe loop finds the first free probe `M` and flags
`all_success = False` exactly when the counter exceeded 999 on the way,
i.e. when `999 ≤ M`.  In particular the hardlink is still created for
`M ≥ 999`: only the flag records the failure. -/
theorem renameLoopWalk_finds (ex : String → Bool) (stem suffix : String)
    (M : Nat) :
    ∀ fuel c cur fl, 1 ≤ c → c ≤ M → M + 2 - c ≤ fuel → ex cur = true →
    (∀ k, c ≤ k → k < M → ex (probeName stem suffix k) = true) →
    ex (probeName stem suffix M) = false →
    renameLoopWalk ex stem suffix fuel c cur fl =
      some (probeName stem suffix M, fl || decide (999 ≤ M)) := by
  intro fuel
  induction fuel with
  | zero => intro c cur fl h1 h2 h3 _ _ _; omega
  | succ f ih =>
    intro c cur fl h1 h2 h3 hcur hk hMex
    rw [renameLoopWalk, hcur]
    simp only [if_true]
    rcases Nat.lt_or_ge c M with hlt | hge
    · rw [ih (c + 1) (probeName stem suffix c) _ (by omega) (by omega) (by omega)
        (hk c le_rfl hlt) (fun k hk1 hk2 => hk k (by omega) hk2) hMex]
      have habs : (999 < c + 1) → (999 ≤ M) := by omega
      by_cases hc : 999 < c + 1
      · simp [hc, habs hc]
      · simp [hc]
    · have hcM : c = M := by omega
      subst hcM
      obtain ⟨f', rfl⟩ : ∃ f', f = f' + 1 := ⟨f - 1, by omega⟩
      rw [renameLoopWalk, hMex]
      simp only [Bool.false_eq_true, if_false]
      have hdd : decide (999 < c + 1) = decide (999 ≤ c) :=
        decide_eq_decide.mpr Nat.lt_succ_iff
      rw [hdd]

/-! ## C3 — file-source `fail`/`skip` conflict handling -/

/-- **C3.** For every file-source deployment whose destination path
already exists: under the `fail` strategy the filesystem is returned
unchanged and the outcome is failure; under the `skip` strategy the
filesystem is returned unchanged and the outcome is success
(`core.py` lines 139–147). -/
theorem file_conflict_fail_skip_frame (env : Env) (fs : FS) (srcName : String)
    (destDir : Path) (name : Option String) (fuel : Nat)
    (hdir : fs.isDir destDir = true)
    (hex : fs.existsPath (destDir ++ [name.getD srcName]) = true) :
    create_hardlink env fs Source.file srcName destDir name Strategy.fail fuel =
      some (fs, false) ∧
    create_hardlink env fs Source.file srcName destDir name Strategy.skip fuel =
      some (fs, true) := by
  constructor <;> simp [create_hardlink, fileDeploy, hdir, hex]

/-- Witness for C3 on a concrete one-entry filesystem. -/
theorem file_conflict_fail_skip_frame_witness :
    create_hardlink ⟨fun _ => false, fun _ => false, fun _ => false⟩
        ⟨[(["d"], NodeKind.dir), (["d", "a"], NodeKind.file 1)]⟩
        Source.file "a" ["d"] none Strategy.fail 5 =
      some (⟨[(["d"], NodeKind.dir), (["d", "a"], NodeKind.file 1)]⟩, false) ∧
    create_hardlink ⟨fun _ => false, fun _ => false, fun _ => false⟩
        ⟨[(["d"], NodeKind.dir), (["d", "a"], NodeKind.file 1)]⟩
        Source.file "a" ["d"] none Strategy.skip 5 =
      some (⟨[(["d"], NodeKind.dir), (["d", "a"], NodeKind.file 1)]⟩, true) :=
  file_conflict_fail_skip_frame ⟨fun _ => false, fun _ => false, fun _ => false⟩
    ⟨[(["d"], NodeKind.dir), (["d", "a"], NodeKind.file 1)]⟩
    "a" ["d"] none 5 (by decide) (by decide)

/-! ## C2 — directory-source top-level conflict handling -/

/-- **C2.** For every directory-source deployment whose top-level target
path already exists: under `rename` the conflict is treated exactly as
`fail` and the deployment aborts with failure before creating anything;
under `fail` it likewise aborts unchanged; under `skip` the outcome is
success and nothing is created (`core.py` lines 45–59). -/
theorem dir_toplevel_conflict_policy (env : Env) (fs : FS)
    (walkEntries : List (Path × List String)) (srcName : String)
    (destDir : Path) (name : Option String) (fuel : Nat)
    (hdir : fs.isDir destDir = true)
    (hex : fs.existsPath (destDir ++ [name.getD srcName]) = true) :
    create_hardlink env fs (Source.dir walkEntries) srcName destDir name
      Strategy.rename fuel = some (fs, false) ∧
    create_hardlink env fs (Source.dir walkEntries) srcName destDir name
      Strategy.fail fuel = some (fs, false) ∧
    create_hardlink env fs (Source.dir walkEntries) srcName destDir name
      Strategy.skip fuel = some (fs, true) := by
  refine ⟨?_, ?_, ?_⟩ <;> simp [create_hardlink, dirDeploy, hdir, hex]

/-- Witness for C2: a directory source whose target name is already taken. -/
theorem dir_toplevel_conflict_policy_witness :
    create_hardlink ⟨fun _ => false, fun _ => false, fun _ => false⟩
        ⟨[(["d"], NodeKind.dir), (["d", "A"], NodeKind.dir)]⟩
        (Source.dir [([], ["f"])]) "A" ["d"] none Strategy.rename 5 =
      some (⟨[(["d"], NodeKind.dir), (["d", "A"], NodeKind.dir)]⟩, false) ∧
    create_hardlink ⟨fun _ => false, fun _ => false, fun _ => false⟩
        ⟨[(["d"], NodeKind.dir), (["d", "A"], NodeKind.dir)]⟩
        (Source.dir [([], ["f"])]) "A" ["d"] none Strategy.fail 5 =
      some (⟨[(["d"], NodeKind.dir), (["d", "A"], NodeKind.dir)]⟩, false) ∧
    create_hardlink ⟨fun _ => false, fun _ => false, fun _ => false⟩
        ⟨[(["d"], NodeKind.dir), (["d", "A"], NodeKind.dir)]⟩
        (Source.dir [([], ["f"])]) "A" ["d"] none Strategy.skip 5 =
      some (⟨[(["d"], NodeKind.dir), (["d", "A"], NodeKind.dir)]⟩, true) :=
  dir_toplevel_conflict_policy ⟨fun _ => false, fun _ => false, fun _ => false⟩
    ⟨[(["d"], NodeKind.dir), (["d", "A"], NodeKind.dir)]⟩
    [([], ["f"])] "A" ["d"] none 5 (by decide) (by decide)

/-! ## C1 — the `rename` strategy's probe counter -/

/-- The probe name derived from a destination name the way both `rename`
loops derive it: `f"{stem} ({k}){suffix}"` of the original name. -/
def renameProbe (linkName : String) (k : Nat) : String :=
  probeName (stemOf linkName) (suffixOf linkName) k

/-- An environment in which no OS call fails. -/
def allOkEnv : Env := ⟨fun _ => false, fun _ => false, fun _ => false⟩

/-- Unfolding of `create_hardlink` for a file source and an existing
destination directory. -/
theorem create_hardlink_file_eq (env : Env) (fs : FS) (srcName : String)
    (destDir : Path) (name : Option String) (strategy : Strategy) (fuel : Nat)
    (hdir : fs.isDir destDir = true) :
    create_hardlink env fs Source.file srcName destDir name strategy fuel =
      some (fileDeploy env fs strategy (name.getD srcName) destDir) := by
  simp [create_hardlink, hdir]

/-- Unfolding of the file-source `rename` branch. -/
theorem fileDeploy_rename_eq (env : Env) (fs : FS) (linkName : String)
    (destDir : Path)
    (hex : fs.existsPath (destDir ++ [linkName]) = true) :
    fileDeploy env fs Strategy.rename linkName destDir =
      (match renameLoopFile (fun nm => fs.existsPath (destDir ++ [nm]))
          (stemOf linkName) (suffixOf linkName) 1000 1 linkName with
       | none => (fs, false)
       | some nm => linkStep env fs true (destDir ++ [nm])) := by
  simp [fileDeploy, hex]

/-- Unfolding of the per-walk-file `rename` branch. -/
theorem processFile_rename_eq (env : Env) (fs : FS) (destRoot : Path)
    (fname : String) (fuel : Nat) (ok : Bool)
    (hex : fs.existsPath (destRoot ++ [fname]) = true) :
    processFile env Strategy.rename fuel destRoot fname (fs, ok) =
      (match renameLoopWalk (fun nm => fs.existsPath (destRoot ++ [nm]))
          (stemOf fname) (suffixOf fname) fuel 1 fname false with
       | none => none
       | some (nm, flagged) =>
         some (linkStep env fs (ok && !flagged) (destRoot ++ [nm]))) := by
  simp [processFile, hex]

/-- **C1 (amended).** Behaviour of the `rename` conflict strategy
(`core.py` lines 161–178 for a file source, 113–124 for files inside a
recursive walk), with `N` the number of pre-existing collisions `"name"`,
`"name (1)"`, …, `"name (N-1)"`:
1. file source, `N ≤ 998`: the hardlink is created at `"name (N)"` and
   the outcome is success;
2. file source, `"name"` and `"name (1)"`–`"name (998)"` all existing
   (i.e. `N ≥ 999`): the operation fails and creates nothing — it aborts
   once the counter would exceed 999, without ever probing `"name (999)"`;
3. file inside a recursive walk, `N ≤ 998`: the hardlink is created at
   `"name (N)"` and the accumulated `all_success` flag is unchanged;
4. file inside a recursive walk whose first free probe is `"name (M)"`
   with `M ≥ 999`: the outcome flag is forced to failure, but the
   hardlink is nevertheless created at `"name (M)"` — the `continue` on
   counter overflow continues the probe `while` loop itself, so nothing
   is skipped. -/
theorem rename_strategy_probe_resolution :
    (∀ (env : Env) (fs : FS) (destDir : Path) (srcName : String) (N fuel : Nat),
      fs.isDir destDir = true → 1 ≤ N → N ≤ 998 →
      fs.existsPath (destDir ++ [srcName]) = true →
      (∀ k, k < N → 1 ≤ k →
        fs.existsPath (destDir ++ [renameProbe srcName k]) = true) →
      fs.existsPath (destDir ++ [renameProbe srcName N]) = false →
      env.linkFails (destDir ++ [renameProbe srcName N]) = false →
      create_hardlink env fs Source.file srcName destDir none Strategy.rename fuel =
        some (fs.insertNode (destDir ++ [renameProbe srcName N]) (NodeKind.file 2),
          true)) ∧
    (∀ (env : Env) (fs : FS) (destDir : Path) (srcName : String) (fuel : Nat),
      fs.isDir destDir = true →
      fs.existsPath (destDir ++ [srcName]) = true →
      (∀ k, k < 999 → 1 ≤ k →
        fs.existsPath (destDir ++ [renameProbe srcName k]) = true) →
      create_hardlink env fs Source.file srcName destDir none Strategy.rename fuel =
        some (fs, false)) ∧
    (∀ (env : Env) (fs : FS) (destRoot : Path) (fname : String) (N fuel : Nat)
      (ok : Bool),
      1 ≤ N → N ≤ 998 → N + 1 ≤ fuel →
      fs.existsPath (destRoot ++ [fname]) = true →
      (∀ k, k < N → 1 ≤ k →
        fs.existsPath (destRoot ++ [renameProbe fname k]) = true) →
      fs.existsPath (destRoot ++ [renameProbe fname N]) = false →
      env.linkFails (destRoot ++ [renameProbe fname N]) = false →
      processFile env Strategy.rename fuel destRoot fname (fs, ok) =
        some (fs.insertNode (destRoot ++ [renameProbe fname N]) (NodeKind.file 2),
          ok)) ∧
    (∀ (env : Env) (fs : FS) (destRoot : Path) (fname : String) (M fuel : Nat)
      (ok : Bool),
      999 ≤ M → M + 1 ≤ fuel →
      fs.existsPath (destRoot ++ [fname]) = true →
      (∀ k, k < M → 1 ≤ k →
        fs.existsPath (destRoot ++ [renameProbe fname k]) = true) →
      fs.existsPath (destRoot ++ [renameProbe fname M]) = false →
      env.linkFails (destRoot ++ [renameProbe fname M]) = false →
      processFile env Strategy.rename fuel destRoot fname (fs, ok) =
        some (fs.insertNode (destRoot ++ [renameProbe fname M]) (NodeKind.file 2),
          false)) := by
  refine ⟨?_, ?_, ?_, ?_⟩
  · intro env fs destDir srcName N fuel hdir h1 h2 hbase hks hNex hlink
    rw [create_hardlink_file_eq env fs srcName destDir none Strategy.rename fuel hdir]
    rw [Option.getD_none] at *
    rw [fileDeploy_rename_eq env fs srcName destDir hbase]
    rw [renameLoopFile_finds (fun nm => fs.existsPath (destDir ++ [nm]))
      (stemOf srcName) (suffixOf srcName) N h2 1000 1 srcName le_rfl h1 (by omega)
      hbase (fun k hk1 hk2 => hks k hk2 hk1) hNex]
    simp only [renameProbe] at hlink
    simp [linkStep, renameProbe, hlink]
  · intro env fs destDir srcName fuel hdir hbase hks
    rw [create_hardlink_file_eq env fs srcName destDir none Strategy.rename fuel hdir]
    rw [Option.getD_none] at *
    rw [fileDeploy_rename_eq env fs srcName destDir hbase]
    rw [renameLoopFile_aborts (fun nm => fs.existsPath (destDir ++ [nm]))
      (stemOf srcName) (suffixOf srcName) 1000 1 srcName le_rfl hbase
      (fun k hk1 hk2 => hks k (by omega) hk1)]
  · intro env fs destRoot fname N fuel ok h1 h2 hfuel hbase hks hNex hlink
    rw [processFile_rename_eq env fs destRoot fname fuel ok hbase]
    rw [renameLoopWalk_finds (fun nm => fs.existsPath (destRoot ++ [nm]))
      (stemOf fname) (suffixOf fname) N fuel 1 fname false le_rfl h1 (by omega)
      hbase (fun k hk1 hk2 => hks k hk2 hk1) hNex]
    have hflag : decide (999 ≤ N) = false := by
      simp only [decide_eq_false_iff_not]; omega
    simp only [renameProbe] at hlink
    simp [linkStep, renameProbe, hflag, hlink]
  · intro env fs destRoot fname M fuel ok hM hfuel hbase hks hMex hlink
    rw [processFile_rename_eq env fs destRoot fname fuel ok hbase]
    rw [renameLoopWalk_finds (fun nm => fs.existsPath (destRoot ++ [nm]))
      (stemOf fname) (suffixOf fname) M fuel 1 fname false le_rfl (by omega)
      (by omega) hbase (fun k hk1 hk2 => hks k hk2 hk1) hMex]
    have hflag : decide (999 ≤ M) = true := by simpa using hM
    simp only [renameProbe] at hlink
    simp [linkStep, renameProbe, hflag, hlink]

/-- Witness for C1 (first conjunct): one collision, link created at
`"a (1).txt"`. -/
theorem rename_strategy_probe_resolution_witness :
    create_hardlink allOkEnv
        ⟨[(["d"], NodeKind.dir), (["d", "a.txt"], NodeKind.file 1)]⟩
        Source.file "a.txt" ["d"] none Strategy.rename 9 =
      some (FS.insertNode
        ⟨[(["d"], NodeKind.dir), (["d", "a.txt"], NodeKind.file 1)]⟩
        (["d"] ++ [renameProbe "a.txt" 1]) (NodeKind.file 2), true) :=
  rename_strategy_probe_resolution.1 allOkEnv
    ⟨[(["d"], NodeKind.dir), (["d", "a.txt"], NodeKind.file 1)]⟩
    ["d"] "a.txt" 1 9 (by decide) (by decide) (by decide) (by decide)
    (by decide) (by decide) (by decide)

/-- A filesystem exhibiting exactly 999 collisions for `"a.txt"`:
`"a.txt"` itself plus `"a (1).txt"` … `"a (998).txt"`. -/
def fs999 : FS :=
  ⟨(["d"], NodeKind.dir) :: (["d", "a.txt"], NodeKind.file 1) ::
    (List.range 998).map
      (fun k => (["d", renameProbe "a.txt" (k + 1)], NodeKind.file 1))⟩

/-- A path bound in the entry list exists. -/
theorem FS.existsPath_of_mem {fs : FS} {p : Path} {k : NodeKind}
    (h : (p, k) ∈ fs.entries) : fs.existsPath p = true := by
  have hs : (List.find? (fun e => decide (e.1 = p)) fs.entries).isSome :=
    List.find?_isSome.mpr ⟨(p, k), h, by simp⟩
  obtain ⟨e, he⟩ := Option.isSome_iff_exists.mp hs
  simp [FS.existsPath, FS.lookup, he]

/-- Every probe `"a (k).txt"`, `1 ≤ k ≤ 998`, exists in `fs999`. -/
theorem fs999_probes (k : Nat) (h1 : 1 ≤ k) (h2 : k ≤ 998) :
    fs999.existsPath (["d"] ++ [renameProbe "a.txt" k]) = true := by
  refine FS.existsPath_of_mem (k := NodeKind.file 1) ?_
  refine List.mem_cons_of_mem _ (List.mem_cons_of_mem _ ?_)
  refine List.mem_map.mpr ⟨k - 1, List.mem_range.mpr (by omega), ?_⟩
  have : k - 1 + 1 = k := by omega
  rw [this]
  rfl

/-- **C1 (counterexample).** With exactly `N = 999` pre-existing
collisions (`"a.txt"`, `"a (1).txt"` … `"a (998).txt"`, and
`"a (999).txt"` free), the claim predicts the hardlink is created at
`"a (999).txt"`; the code instead aborts with failure and creates
nothing: the counter exceeds 999 before `"a (999).txt"` is ever probed. -/
theorem rename_999_collisions_file_source_fails :
    create_hardlink allOkEnv fs999 Source.file "a.txt" ["d"] none
      Strategy.rename 9 = some (fs999, false) ∧
    create_hardlink allOkEnv fs999 Source.file "a.txt" ["d"] none
      Strategy.rename 9 ≠
      some (fs999.insertNode (["d"] ++ [renameProbe "a.txt" 999])
        (NodeKind.file 2), true) := by
  have hbase : fs999.existsPath (["d"] ++ ["a.txt"]) = true :=
    FS.existsPath_of_mem (k := NodeKind.file 1)
      (List.mem_cons_of_mem _ (List.mem_cons_self _ _))
  have hmain : create_hardlink allOkEnv fs999 Source.file "a.txt" ["d"] none
      Strategy.rename 9 = some (fs999, false) := by
    rw [create_hardlink_file_eq allOkEnv fs999 "a.txt" ["d"] none
      Strategy.rename 9 (by decide)]
    rw [Option.getD_none]
    rw [fileDeploy_rename_eq allOkEnv fs999 "a.txt" ["d"] hbase]
    rw [renameLoopFile_aborts (fun nm => fs999.existsPath (["d"] ++ [nm]))
      (stemOf "a.txt") (suffixOf "a.txt") 1000 1 "a.txt" le_rfl hbase
      (fun k hk1 hk2 => fs999_probes k hk1 hk2)]
  refine ⟨hmain, ?_⟩
  rw [hmain]
  simp

/-! ## C6 — mkdir failure during the recursive walk -/

/-- **C6 (amended).** When creating the destination sub-directory of a
walk entry fails, only that entry's own files are skipped: the filesystem
is unchanged by the entry, the outcome flag is forced to failure, and the
walk continues with all remaining entries — which include the entries for
the directories *beneath* the failed one, not only sibling subtrees
(`core.py` lines 77–90: the `continue` does not prune `os.walk`). -/
theorem subtree_mkdir_failure_skips_only_own_files (env : Env)
    (strategy : Strategy) (fuel : Nat) (target : Path) (fs : FS) (ok : Bool)
    (r : Path) (files : List String) (rest : List (Path × List String))
    (hfail : env.mkdirFails (target ++ r) = true) :
    walkFold env strategy fuel target (fs, ok) ((r, files) :: rest) =
      walkFold env strategy fuel target (fs, false) rest := by
  simp [walkFold, hfail]

/-- Witness for C6 on a one-entry walk whose mkdir fails. -/
theorem subtree_mkdir_failure_skips_only_own_files_witness :
    walkFold ⟨fun _ => true, fun _ => false, fun _ => false⟩ Strategy.rename 5
        ["d"] (⟨[(["d"], NodeKind.dir)]⟩, true) [(["s"], ["f"])] =
      walkFold ⟨fun _ => true, fun _ => false, fun _ => false⟩ Strategy.rename 5
        ["d"] (⟨[(["d"], NodeKind.dir)]⟩, false) [] :=
  subtree_mkdir_failure_skips_only_own_files
    ⟨fun _ => true, fun _ => false, fun _ => false⟩ Strategy.rename 5
    ["d"] ⟨[(["d"], NodeKind.dir)]⟩ true ["s"] ["f"] [] (by decide)

/-- The `os.walk` enumeration of a source directory `A` with subtrees
`s/c/f` and `t/g` (top-down). -/
def walkC6 : List (Path × List String) :=
  [([], []), (["s"], []), (["s", "c"], ["f"]), (["t"], ["g"])]

/-- An environment whose only failing OS call is the mkdir of `d/A/s`. -/
def envC6 : Env :=
  ⟨fun p => decide (p = ["d", "A", "s"]), fun _ => false, fun _ => false⟩

/-- A destination containing just the directory `d`. -/
def fsC6 : FS := ⟨[(["d"], NodeKind.dir)]⟩

/-- **C6 (counterexample).** Deploying directory `A` into `d` while the
mkdir of `d/A/s` fails: the claim says nothing beneath the failed
sub-directory is processed or created, but the file `d/A/s/c/f` *is*
created (the walk descends into `s/c` and `mkdir(parents=True)` recreates
`d/A/s` on the way); the sibling subtree `t` is linked as claimed, and the
overall outcome is failure. -/
theorem subtree_failure_descendants_still_created :
    (create_hardlink envC6 fsC6 (Source.dir walkC6) "A" ["d"] none
        Strategy.rename 9).map
      (fun r => (r.1.existsPath ["d", "A", "s", "c", "f"],
        r.1.existsPath ["d", "A", "t", "g"], r.2)) =
      some (true, true, false) := by
  decide

/-! ## C7 — cursor clamping on listing reload -/

/-- **C7 (amended).** After every listing reload, for any prior cursor
value and any preserve request: if the new listing is empty the cursor is
0 (the claimed interval `[0, len)` is empty in that case), and otherwise
the cursor lies within `[0, len)` (`tui_browser.py` lines 156–163). -/
theorem reload_cursor_clamped (listing : Path → List Path) (st : TUIState)
    (path : Path) (preserve : Option Int) :
    ((listing path).length = 0 →
      (load_directory listing st path preserve).cursorIndex = 0) ∧
    (0 < (listing path).length →
      0 ≤ (load_directory listing st path preserve).cursorIndex ∧
      (load_directory listing st path preserve).cursorIndex <
        ((listing path).length : Int)) := by
  simp only [load_directory]
  constructor
  · intro h0
    cases preserve <;> simp only [reloadCursor] <;> split_ifs <;> omega
  · intro hpos
    cases preserve <;> simp only [reloadCursor] <;> split_ifs <;>
      constructor <;> omega

/-- Witness for C7 on a two-entry listing and an out-of-range prior
cursor. -/
theorem reload_cursor_clamped_witness :
    0 ≤ (load_directory (fun _ => [["a"], ["b"]]) ⟨["x"], [], 7, []⟩
        ["y"] none).cursorIndex ∧
    (load_directory (fun _ => [["a"], ["b"]]) ⟨["x"], [], 7, []⟩
        ["y"] none).cursorIndex < (([["a"], ["b"]] : List Path).length : Int) :=
  (reload_cursor_clamped (fun _ => [["a"], ["b"]]) ⟨["x"], [], 7, []⟩
    ["y"] none).2 (by decide)

/-- A listing oracle for a directory that is currently empty. -/
def listEmptyC7 : Path → List Path := fun _ => []

/-- **C7 (counterexample).** Reloading an empty listing (any prior
cursor, no preserve request) sets the cursor to 0, which does *not* lie
in the then-empty interval `[0, len(entries)) = [0, 0)`. -/
theorem reload_cursor_empty_listing_violates_interval :
    ¬ (0 ≤ (load_directory listEmptyC7 ⟨["x"], [["a"]], 5, []⟩ ["x"] none).cursorIndex ∧
       (load_directory listEmptyC7 ⟨["x"], [["a"]], 5, []⟩ ["x"] none).cursorIndex <
         (((load_directory listEmptyC7 ⟨["x"], [["a"]], 5, []⟩ ["x"] none).items.length : Nat) : Int)) := by
  decide

/-! ## C8 — the GoUp command -/

/-- Dropping the last component of a non-root path changes it. -/
theorem dropLast_ne_self {l : Path} (h : l ≠ []) : l.dropLast ≠ l := by
  intro he
  have hlen := congrArg List.length he
  rw [List.length_dropLast] at hlen
  cases l with
  | nil => exact h rfl
  | cons a t => simp at hlen

/-- **C8 (amended).** `action_go_up` (`tui_browser.py` lines 195–199):
at the filesystem root it is a no-op; otherwise the current directory
becomes its parent and the listing is reloaded — but the cursor is *not*
reset to 0: the reload (with no preserve request) keeps a cursor that is
still in range for the parent's listing and resets it to 0 only when it
is out of range.  The selection set is untouched. -/
theorem go_up_parent_and_cursor (listing : Path → List Path) (st : TUIState) :
    (st.currentDir = [] → action_go_up listing st = st) ∧
    (st.currentDir ≠ [] →
      (action_go_up listing st).currentDir = st.currentDir.dropLast ∧
      (action_go_up listing st).items = listing st.currentDir.dropLast ∧
      (action_go_up listing st).selected = st.selected ∧
      (0 ≤ st.cursorIndex →
        st.cursorIndex < ((listing st.currentDir.dropLast).length : Int) →
        (action_go_up listing st).cursorIndex = st.cursorIndex) ∧
      ((st.cursorIndex < 0 ∨
          ((listing st.currentDir.dropLast).length : Int) ≤ st.cursorIndex) →
        (action_go_up listing st).cursorIndex = 0)) := by
  constructor
  · intro hroot
    have : st.currentDir.dropLast = st.currentDir := by rw [hroot]; rfl
    simp [action_go_up, this]
  · intro hnotroot
    have hne : st.currentDir.dropLast ≠ st.currentDir := dropLast_ne_self hnotroot
    simp only [action_go_up, hne, if_false, load_directory]
    refine ⟨trivial, trivial, trivial, ?_, ?_⟩
    · intro h1 h2
      simp only [reloadCursor]
      rw [if_neg (by omega)]
    · intro h
      simp only [reloadCursor]
      rw [if_pos (by omega)]

/-- Witness for C8: a GoUp from a non-root directory with an out-of-range
cursor resets the cursor to 0. -/
theorem go_up_parent_and_cursor_witness :
    (action_go_up (fun _ => [["a"]]) ⟨["x"], [], 5, []⟩).cursorIndex = 0 :=
  ((go_up_parent_and_cursor (fun _ => [["a"]]) ⟨["x"], [], 5, []⟩).2
    (by decide)).2.2.2.2 (Or.inr (by decide))

/-- A listing oracle: the root directory holds two entries, everything
else is empty. -/
def lstC8 : Path → List Path := fun p => if p = [] then [["a"], ["b"]] else []

/-- **C8 (counterexample).** GoUp from `/x` (cursor 1) to the root, whose
listing has two entries: the command does move to the parent, but the
cursor remains 1 instead of being reset to 0 as the claim states. -/
theorem go_up_keeps_in_range_cursor :
    (action_go_up lstC8 ⟨["x"], [], 1, []⟩).currentDir = [] ∧
    (action_go_up lstC8 ⟨["x"], [], 1, []⟩).cursorIndex = 1 ∧ ((1 : Int) ≠ 0) := by
  decide

/-! ## C10 — ToggleSelect is an involution on the selection set -/

/-- Unfolding of one in-range `action_toggle_select`: the selection set is
toggled at the resolved entry, the listing is reloaded for the same
directory, and the current directory is unchanged. -/
theorem action_toggle_select_fields (listing : Path → List Path)
    (resolve : Path → Path) (st : TUIState) (e : Path)
    (hguard : ¬(st.items.length = 0 ∨ (st.items.length : Int) ≤ st.cursorIndex))
    (hget : st.items.get? st.cursorIndex.toNat = some e) :
    (action_toggle_select listing resolve st).selected =
      (if resolve e ∈ st.selected then st.selected.erase (resolve e)
       else resolve e :: st.selected) ∧
    (action_toggle_select listing resolve st).items = listing st.currentDir ∧
    (action_toggle_select listing resolve st).currentDir = st.currentDir := by
  simp only [action_toggle_select, if_neg hguard, hget, load_directory]
  exact ⟨trivial, trivial, trivial⟩

/-- A list is a permutation of its eraseed element put back in front. -/
theorem perm_cons_erase_of_mem {l : List Path} {a : Path} (h : a ∈ l) :
    List.Perm l (a :: l.erase a) := by
  induction l with
  | nil => cases h
  | cons b t ih =>
    rcases List.mem_cons.mp h with rfl | ht
    · rw [List.erase_cons_head]
    · by_cases hb : b = a
      · subst hb
        rw [List.erase_cons_head]
      · rw [List.erase_cons, if_neg (by simpa using hb)]
        exact ((ih ht).cons b).trans (List.Perm.swap a b _)

/-- **C10.** For every non-empty listing and in-range cursor positions,
applying `ToggleSelect` twice at entries with the same resolved path
(with the listing unchanged between the two commands) leaves the
selection set equal to its original value — membership toggling is an
involution (`tui_browser.py` lines 210–229).  The set is represented as a
duplicate-free list, so equality of sets is permutation. -/
theorem toggle_select_involution (listing : Path → List Path)
    (resolve : Path → Path) (st : TUIState) (j : Int)
    (hnd : st.selected.Nodup)
    (hlist : listing st.currentDir = st.items)
    (h0 : 0 ≤ st.cursorIndex) (h1 : st.cursorIndex < (st.items.length : Int))
    (hj0 : 0 ≤ j) (hj1 : j < (st.items.length : Int))
    (hsame : (st.items.get? j.toNat).map resolve =
      (st.items.get? st.cursorIndex.toNat).map resolve) :
    List.Perm
      ((action_toggle_select listing resolve
        { action_toggle_select listing resolve st with cursorIndex := j }).selected)
      st.selected := by
  have hlt1 : st.cursorIndex.toNat < st.items.length := by omega
  obtain ⟨e1, hget1⟩ : ∃ e, st.items.get? st.cursorIndex.toNat = some e :=
    ⟨_, List.get?_eq_get hlt1⟩
  have hguard1 : ¬(st.items.length = 0 ∨ (st.items.length : Int) ≤ st.cursorIndex) := by
    omega
  obtain ⟨hsel1, hitems1, hdir1⟩ :=
    action_toggle_select_fields listing resolve st e1 hguard1 hget1
  have hitems2 :
      ({ action_toggle_select listing resolve st with cursorIndex := j }).items =
        st.items := by
    show (action_toggle_select listing resolve st).items = st.items
    rw [hitems1, hlist]
  have hdir2 :
      ({ action_toggle_select listing resolve st with cursorIndex := j }).currentDir =
        st.currentDir := hdir1
  have hsel2 :
      ({ action_toggle_select listing resolve st with cursorIndex := j }).selected =
        (if resolve e1 ∈ st.selected then st.selected.erase (resolve e1)
         else resolve e1 :: st.selected) := hsel1
  have hcur2 :
      ({ action_toggle_select listing resolve st with cursorIndex := j }).cursorIndex =
        j := rfl
  have hlt2 : j.toNat < st.items.length := by omega
  obtain ⟨e2, hget2⟩ : ∃ e, st.items.get? j.toNat = some e :=
    ⟨_, List.get?_eq_get hlt2⟩
  have hres : resolve e2 = resolve e1 := by
    rw [hget1, hget2] at hsame
    simpa using hsame
  have hguard2 : ¬(({ action_toggle_select listing resolve st with
      cursorIndex := j }).items.length = 0 ∨
      ((({ action_toggle_select listing resolve st with
        cursorIndex := j }).items.length : Nat) : Int) ≤
        ({ action_toggle_select listing resolve st with
          cursorIndex := j }).cursorIndex) := by
    rw [hitems2, hcur2]
    omega
  have hget2' :
      ({ action_toggle_select listing resolve st with cursorIndex := j }).items.get?
        (({ action_toggle_select listing resolve st with
          cursorIndex := j }).cursorIndex).toNat = some e2 := by
    rw [hitems2, hcur2]
    exact hget2
  obtain ⟨hsel3, _, _⟩ :=
    action_toggle_select_fields listing resolve
      { action_toggle_select listing resolve st with cursorIndex := j }
      e2 hguard2 hget2'
  rw [hsel3, hres, hsel2]
  by_cases hmem : resolve e1 ∈ st.selected
  · rw [if_pos hmem]
    have hnm : resolve e1 ∉ st.selected.erase (resolve e1) :=
      List.Nodup.not_mem_erase hnd
    rw [if_neg hnm]
    exact (perm_cons_erase_of_mem hmem).symm
  · rw [if_neg hmem]
    have hm : resolve e1 ∈ resolve e1 :: st.selected := List.mem_cons_self _ _
    rw [if_pos hm, List.erase_cons_head]

/-- Witness for C10: toggling the first entry twice (cursor repositioned
to 0 in between) restores the empty selection. -/
theorem toggle_select_involution_witness :
    List.Perm
      ((action_toggle_select (fun _ => [["a"], ["b"]]) id
        { action_toggle_select (fun _ => [["a"], ["b"]]) id
            ⟨["x"], [["a"], ["b"]], 0, []⟩ with cursorIndex := 0 }).selected)
      (⟨["x"], [["a"], ["b"]], 0, []⟩ : TUIState).selected :=
  toggle_select_involution (fun _ => [["a"], ["b"]]) id
    ⟨["x"], [["a"], ["b"]], 0, []⟩ 0 (by decide) (by decide) (by decide)
    (by decide) (by decide) (by decide) (by decide)

/-! ## C4 — deleting a directory of hardlinks -/

/-- With no failing unlink, the cleanup loop unlinks every contained
file. -/
theorem unlinkAll_clean (env : DelEnv)
    (h : ∀ n, env.unlinkFails n = false) :
    ∀ items, unlinkAll env items = (items.map DirItem.name, true) := by
  intro items
  induction items with
  | nil => rfl
  | cons it rest ih => simp [unlinkAll, h it.name, ih]

/-- **C4.** `action_delete_link` on a directory (`tui_browser.py` lines
252–299), with no OS call failing: if the directory is non-empty,
contains no sub-directory, and every contained file has link count > 1,
every contained file is unlinked and the directory is removed; if it
contains any sub-directory or any file with link count ≤ 1, the deletion
is refused and nothing is deleted. -/
theorem delete_dir_hardlink_shell (env : DelEnv) (items : List DirItem)
    (hl : env.listFails = false)
    (hu : ∀ n, env.unlinkFails n = false)
    (hr : env.rmdirFails = false) :
    (items ≠ [] → (∀ it ∈ items, it.isDir = false ∧ 1 < it.nlink) →
      deleteDirAction env items =
        (DelOutcome.cleaned, items.map DirItem.name, true)) ∧
    ((∃ it ∈ items, it.isDir = true ∨ it.nlink ≤ 1) →
      deleteDirAction env items = (DelOutcome.refused, [], false)) := by
  constructor
  · intro hne hall
    have hany : items.any (fun it => it.isDir || decide (it.nlink ≤ 1)) = false := by
      rw [List.any_eq_false]
      intro it hit
      obtain ⟨hd, hn⟩ := hall it hit
      simp [hd]
      omega
    have hcont : items.isEmpty = false := by
      cases items with
      | nil => exact absurd rfl hne
      | cons a t => rfl
    simp [deleteDirAction, hl, hany, hcont, unlinkAll_clean env hu, hr]
  · rintro ⟨it, hit, hor⟩
    have hany : items.any (fun it => it.isDir || decide (it.nlink ≤ 1)) = true := by
      rw [List.any_eq_true]
      refine ⟨it, hit, ?_⟩
      rcases hor with h | h
      · simp [h]
      · simp
        omega
    have hcont : items.isEmpty = false := by
      cases items with
      | nil => simp at hit
      | cons a t => rfl
    simp [deleteDirAction, hl, hany, hcont]

/-- Witness for C4: a directory holding two hardlinked files is cleaned
up; a directory holding a single-link file is refused. -/
theorem delete_dir_hardlink_shell_witness :
    deleteDirAction ⟨false, fun _ => false, false⟩
        [⟨"f", false, 2⟩, ⟨"g", false, 3⟩] =
      (DelOutcome.cleaned, ["f", "g"], true) ∧
    deleteDirAction ⟨false, fun _ => false, false⟩ [⟨"h", false, 1⟩] =
      (DelOutcome.refused, [], false) :=
  ⟨(delete_dir_hardlink_shell ⟨false, fun _ => false, false⟩
      [⟨"f", false, 2⟩, ⟨"g", false, 3⟩] (by decide) (fun _ => rfl)
      (by decide)).1 (by decide) (by decide),
   (delete_dir_hardlink_shell ⟨false, fun _ => false, false⟩
      [⟨"h", false, 1⟩] (by decide) (fun _ => rfl) (by decide)).2
     ⟨⟨"h", false, 1⟩, by decide, by decide⟩⟩

/-! ## C5 — the Deploy command -/

/-- Accounting invariant of the per-item deploy loop: every item is
counted exactly once (no item aborts the batch) and every vanished item
is counted among the failures. -/
theorem deployFold_accounting (env : Env) (fuel : Nat)
    (sourceOf : Path → Source) (destDir : Path) :
    ∀ (l : List Path) (fs : FS) (s f : Nat) (res : FS × Nat × Nat),
      deployFold env fuel sourceOf destDir l (fs, s, f) = some res →
      res.2.1 + res.2.2 = s + f + l.length ∧
      f + (l.filter (fun p => decide (sourceOf p = Source.missing))).length ≤
        res.2.2 := by
  intro l
  induction l with
  | nil =>
    intro fs s f res h
    rw [deployFold] at h
    cases h
    simp
  | cons p rest ih =>
    intro fs s f res h
    rw [deployFold] at h
    by_cases hm : sourceOf p = Source.missing
    · rw [if_pos hm] at h
      have hi := ih fs s (f + 1) res h
      have hfl : (List.filter (fun q => decide (sourceOf q = Source.missing))
          (p :: rest)).length =
          (List.filter (fun q => decide (sourceOf q = Source.missing)) rest).length + 1 := by
        simp [List.filter_cons, hm]
      constructor
      · have h1 := hi.1; simp only [List.length_cons]; omega
      · have h2 := hi.2; rw [hfl]; omega
    · rw [if_neg hm] at h
      cases hc : create_hardlink env fs (sourceOf p) (baseNameOf p) destDir none
          Strategy.rename fuel with
      | none =>
        rw [hc] at h
        exact Option.noConfusion h
      | some pr =>
        rw [hc] at h
        obtain ⟨fs', b⟩ := pr
        have hfl : (List.filter (fun q => decide (sourceOf q = Source.missing))
            (p :: rest)).length =
            (List.filter (fun q => decide (sourceOf q = Source.missing)) rest).length := by
          simp [List.filter_cons, hm]
        cases b
        · have hi := ih fs' s (f + 1) res h
          constructor
          · have h1 := hi.1; simp only [List.length_cons]; omega
          · have h2 := hi.2; rw [hfl]; omega
        · have hi := ih fs' (s + 1) f res h
          constructor
          · have h1 := hi.1; simp only [List.length_cons]; omega
          · have h2 := hi.2; rw [hfl]; omega

/-- **C5.** `action_deploy` (`tui_browser.py` lines 301–332): an empty
selection is a bell-only no-op; otherwise, whenever the batch completes,
the selection set is empty afterward regardless of per-item outcomes,
every selected item is counted exactly once as a success or a failure
(vanished paths do not abort the batch), and the vanished paths are all
counted among the failures. -/
theorem deploy_signal_clear_and_accounting (listing : Path → List Path)
    (env : Env) (fuel : Nat) (sourceOf : Path → Source) (st : TUIState)
    (fs : FS) :
    (st.selected = [] →
      action_deploy listing env fuel sourceOf st fs =
        DeployResult.emptySignal st fs) ∧
    (∀ st' fs' s f,
      action_deploy listing env fuel sourceOf st fs =
        DeployResult.completed st' fs' s f →
      st'.selected = [] ∧
      s + f = st.selected.length ∧
      (st.selected.filter (fun p => decide (sourceOf p = Source.missing))).length ≤ f) := by
  constructor
  · intro h
    simp [action_deploy, h]
  · intro st' fs' s f h
    by_cases hsel : st.selected = []
    · rw [action_deploy, if_pos hsel] at h
      exact DeployResult.noConfusion h
    · rw [action_deploy, if_neg hsel] at h
      cases hd : deployFold env fuel sourceOf st.currentDir st.selected (fs, 0, 0) with
      | none =>
        rw [hd] at h
        exact DeployResult.noConfusion h
      | some res =>
        rw [hd] at h
        obtain ⟨fs'', s'', f''⟩ := res
        have acc := deployFold_accounting env fuel sourceOf st.currentDir
          st.selected fs 0 0 (fs'', s'', f'') hd
        injection h with h1 h2 h3 h4
        refine ⟨?_, ?_, ?_⟩
        · rw [← h1]; rfl
        · rw [← h3, ← h4]; simpa using acc.1
        · rw [← h4]; simpa using acc.2

/-- Witness for C5: a two-item selection (one vanished, one deployable
file) completes with one success and one failure and clears the
selection. -/
theorem deploy_signal_clear_and_accounting_witness :
    (action_deploy (fun _ => []) allOkEnv 5
        (fun p => if p = ["s", "a"] then Source.file else Source.missing)
        ⟨["d"], [], 0, [["s", "a"], ["s", "b"]]⟩ ⟨[(["d"], NodeKind.dir)]⟩ =
      DeployResult.completed ⟨["d"], [], 0, []⟩
        ⟨[(["d", "a"], NodeKind.file 2), (["d"], NodeKind.dir)]⟩ 1 1) ∧
    ((⟨["d"], [], 0, []⟩ : TUIState).selected = [] ∧
      1 + 1 = ([["s", "a"], ["s", "b"]] : List Path).length ∧
      (([["s", "a"], ["s", "b"]] : List Path).filter
        (fun p => decide ((if p = ["s", "a"] then Source.file else Source.missing) =
          Source.missing))).length ≤ 1) :=
  ⟨by decide,
   (deploy_signal_clear_and_accounting (fun _ => []) allOkEnv 5
      (fun p => if p = ["s", "a"] then Source.file else Source.missing)
      ⟨["d"], [], 0, [["s", "a"], ["s", "b"]]⟩ ⟨[(["d"], NodeKind.dir)]⟩).2
     ⟨["d"], [], 0, []⟩
     ⟨[(["d", "a"], NodeKind.file 2), (["d"], NodeKind.dir)]⟩ 1 1 (by decide)⟩

/-! ## C9 — permission-rule lookup by raw string prefix -/

/-- The specification-side reformulation of the lookup, following the
spec's words: flatten the mounts in iteration order and return the triple
of the *first* application one of whose path prefixes is a raw string
prefix of the destination. -/
def specPermissionLookup (config : List (List AppInfo)) (d : String) :
    Option PermRule :=
  ((config.flatMap (fun mount => mount)).find?
      (fun a => a.paths.any (fun ap => pyStartsWith d ap))).map
    (fun a => ⟨a.user, a.group, a.permissions⟩)

/-- The innermost path loop returns the application's triple exactly when
some path prefix matches. -/
theorem findInPaths_eq (d : String) (a : AppInfo) :
    ∀ ps, findInPaths d a ps =
      (if ps.any (fun ap => pyStartsWith d ap)
       then some ⟨a.user, a.group, a.permissions⟩ else none) := by
  intro ps
  induction ps with
  | nil => rfl
  | cons ap rest ih =>
    by_cases h : pyStartsWith d ap
    · simp [findInPaths, h]
    · simp [findInPaths, h, ih]

/-- The application loop is a first-match search. -/
theorem findInApps_eq (d : String) :
    ∀ apps, findInApps d apps =
      (apps.find? (fun a => a.paths.any (fun ap => pyStartsWith d ap))).map
        (fun a => ⟨a.user, a.group, a.permissions⟩) := by
  intro apps
  induction apps with
  | nil => rfl
  | cons a rest ih =>
    rw [findInApps, findInPaths_eq]
    by_cases h : a.paths.any (fun ap => pyStartsWith d ap)
    · simp [List.find?_cons_of_pos _ h, h]
    · simp only [h, Bool.false_eq_true, if_false]
      rw [List.find?_cons_of_neg _ (by simp [h]), ih]

/-- **C9.** `get_app_permissions_for_path` (`permissions_helper.py`
lines 52–75) matches a destination against a rule's path prefix by raw
string prefix (`str(dest_path).startswith(prefix)`), not by path
components, and returns the first matching rule in the configuration's
iteration order: it equals the first-match search over the flattened
mount/application order, and in particular `"/mnt/data2/x"` *does* match
the prefix `"/mnt/data"`. -/
theorem permission_lookup_first_prefix_match :
    (∀ (config : List (List AppInfo)) (d : String),
      get_app_permissions_for_path d config = specPermissionLookup config d) ∧
    get_app_permissions_for_path "/mnt/data2/x"
        [[⟨["/mnt/data"], "u", "g", "770"⟩]] =
      some ⟨"u", "g", "770"⟩ := by
  constructor
  · intro config d
    induction config with
    | nil => rfl
    | cons mount rest ih =>
      rw [get_app_permissions_for_path, findInApps_eq]
      rw [specPermissionLookup]
      rw [List.flatMap_cons, List.find?_append]
      cases hf : mount.find? (fun a => a.paths.any (fun ap => pyStartsWith d ap)) with
      | none =>
        simp only [hf, Option.map_none, Option.none_or]
        exact ih
      | some a =>
        simp [hf]
  · decide

end Linker
